import Mathlib

/-!
# Verification of the polkadot-embedded-wallet core

Shallow embedding of the Rust sources under `src/core/src` of the
polkadot-embedded-wallet repository, together with proofs of the spec's
claims about them.

Conventions of the embedding:
* Machine bytes (`u8`) are modelled as `Nat`; byte strings (`Vec<u8>`) as
  `List Nat` (`Bytes` below).
* Fallible Rust functions returning `Result<T, E>` are modelled as
  `Except E T`.
* `H256` (a fixed 32-byte hash) is modelled as `Bytes`; theorems that need
  the length carry an explicit `length = 32` hypothesis.
* The SCALE codec (`parity-scale-codec` derive) on the one enum this core
  (de)serializes is embedded directly: an enum encodes as its variant index
  byte followed by the fields; `Decode::decode` reads exactly what it needs
  from the front of the input and ignores any remaining bytes (this mirrors
  the crate: checking for left-over bytes is done only by `decode_all`,
  which this code does not use).
-/

/-- Byte strings (`Vec<u8>` / `&[u8]`), each entry standing for one `u8`. -/
abbrev Bytes := List Nat

/-- `Encryption` from `definitions.rs`: the four signature schemes the
wallet supports. -/
inductive Encryption
  | Ed25519
  | Sr25519
  | Ecdsa
  | Ethereum
  deriving DecidableEq

/-- Modelled from the spec: the module `error.rs` (declared `mod error` in
`main.rs`) is not among the available sources.  The spec's error taxonomy
(§7) lists the input-validation errors `InvalidHex`, `MalformedKey` and
`WrongPublicKeyLength` for errors produced in `definitions.rs` /
`helpers.rs` (the `DefinitionResult` error type); a further variant covers
the `libsecp256k1` parse failure converted by `?` in
`ecdsa_public_to_eth_address`. -/
inductive DefinitionError
  | invalidHex
  | malformedKey
  | wrongPublicKeyLength
  | secp256k1Error
  deriving DecidableEq

/-- `sp_core::crypto::SecretStringError`: the rejection reasons of the
scheme-specific secret-URI parsers (external crate; constructors as
documented by `sp_core`). -/
inductive SecretStringError
  | invalidFormat
  | invalidPhrase
  | invalidPassword
  | invalidSeed
  | invalidSeedLength
  | invalidPath
  deriving DecidableEq

/-- Modelled from the spec: `IdentityError` from the missing `error.rs`
(`IdentityResult` error type used by `main.rs` and `keyring.rs`).  The spec
names `EmptySeed` and `EmptySeedName`; `main.rs` constructs
`IdentityError::SecretStringError(e)` explicitly, and `keyring.rs` converts
`DefinitionError` values with `?`, so a wrapping variant for each is
included. -/
inductive IdentityError
  | emptySeed
  | emptySeedName
  | secretStringError (e : SecretStringError)
  | definitionError (e : DefinitionError)
  deriving DecidableEq

/-- `true` exactly on `Except.ok`. -/
def exceptIsOk {ε α : Type} : Except ε α → Bool
  | .ok _ => true
  | .error _ => false

/-! ## Hex decoding (`helpers.rs`, `unhex`) -/

/-- The numeric value of one hexadecimal digit (`hex` crate semantics:
`0-9`, `a-f` and `A-F` are accepted). -/
def hexDigitValue (c : Char) : Option Nat :=
  if 48 ≤ c.toNat ∧ c.toNat ≤ 57 then some (c.toNat - 48)
  else if 97 ≤ c.toNat ∧ c.toNat ≤ 102 then some (c.toNat - 87)
  else if 65 ≤ c.toNat ∧ c.toNat ≤ 70 then some (c.toNat - 55)
  else none

/-- `hex::decode`: an even number of hex digits, two digits per output
byte; anything else is a decode error (`none`). -/
def hexDecodeChars : List Char → Option Bytes
  | [] => some []
  | [_] => none
  | a :: b :: rest =>
    match hexDigitValue a, hexDigitValue b, hexDecodeChars rest with
    | some x, some y, some r => some ((16 * x + y) :: r)
    | _, _, _ => none

/-- `str::strip_prefix("0x")`, folded into the caller: drop a leading
`"0x"` when present, otherwise keep the string unchanged. -/
def strip0x : List Char → List Char
  | '0' :: 'x' :: rest => rest
  | l => l

/-- `unhex` from `helpers.rs`: strip an optional `0x` and hex-decode,
any failure of `hex::decode` becoming an `InvalidHex` error. -/
def unhex (hex_entry : String) : Except DefinitionError Bytes :=
  match hexDecodeChars (strip0x hex_entry.data) with
  | some v => .ok v
  | none => .error .invalidHex

/-! ## `NetworkSpecsKey` (`definitions.rs` / `network_spec.rs`) -/

/-- `NetworkSpecsKey`: a wrapper around the raw key byte string
(`pub struct NetworkSpecsKey(Vec<u8>)`). -/
structure NetworkSpecsKey where
  raw : Bytes
  deriving DecidableEq

/-- `NetworkSpecsKeyContent` from `definitions.rs`: encryption-tagged
genesis hash. -/
inductive NetworkSpecsKeyContent
  | Ed25519 (h : Bytes)
  | Sr25519 (h : Bytes)
  | Ecdsa (h : Bytes)
  | Ethereum (h : Bytes)
  deriving DecidableEq

/-- Derived SCALE `Encode` for `NetworkSpecsKeyContent`: variant index
byte followed by the 32 bytes of the `H256` field. -/
def NetworkSpecsKeyContent.encode : NetworkSpecsKeyContent → Bytes
  | .Ed25519 h => 0 :: h
  | .Sr25519 h => 1 :: h
  | .Ecdsa h => 2 :: h
  | .Ethereum h => 3 :: h

/-- Derived SCALE `Decode` for `NetworkSpecsKeyContent`: read the variant
index byte (any value other than 0–3 is "unexpected variant", an error),
then read exactly 32 bytes for the `H256` field (too little input is an
error).  The unread remainder of the input is returned, not rejected —
plain `Decode::decode` never checks for trailing data. -/
def NetworkSpecsKeyContent.decode (b : Bytes) :
    Option (NetworkSpecsKeyContent × Bytes) :=
  match b with
  | [] => none
  | t :: rest =>
    if 32 ≤ rest.length then
      if t = 0 then some (.Ed25519 (rest.take 32), rest.drop 32)
      else if t = 1 then some (.Sr25519 (rest.take 32), rest.drop 32)
      else if t = 2 then some (.Ecdsa (rest.take 32), rest.drop 32)
      else if t = 3 then some (.Ethereum (rest.take 32), rest.drop 32)
      else none
    else none

/-- `NetworkSpecsKey::from_parts`: wrap the genesis hash in the variant
matching the encryption and SCALE-encode it. -/
def NetworkSpecsKey.from_parts (genesis_hash : Bytes) (encryption : Encryption) :
    NetworkSpecsKey :=
  let network_key_content : NetworkSpecsKeyContent :=
    match encryption with
    | .Ed25519 => .Ed25519 genesis_hash
    | .Sr25519 => .Sr25519 genesis_hash
    | .Ecdsa => .Ecdsa genesis_hash
    | .Ethereum => .Ethereum genesis_hash
  ⟨network_key_content.encode⟩

/-- `NetworkSpecsKey::from_hex`: only hex validity is checked, the bytes
are wrapped unexamined. -/
def NetworkSpecsKey.from_hex (hex_line : String) :
    Except DefinitionError NetworkSpecsKey :=
  (unhex hex_line).map NetworkSpecsKey.mk

/-- `NetworkSpecsKey::genesis_hash_encryption`: SCALE-decode the raw key
bytes; a codec error becomes `MalformedKey` (the `?` conversion into the
spec-modelled `DefinitionError`). -/
def NetworkSpecsKey.genesis_hash_encryption (k : NetworkSpecsKey) :
    Except DefinitionError (Bytes × Encryption) :=
  match NetworkSpecsKeyContent.decode k.raw with
  | some (.Ed25519 b, _) => .ok (b, .Ed25519)
  | some (.Sr25519 b, _) => .ok (b, .Sr25519)
  | some (.Ecdsa b, _) => .ok (b, .Ecdsa)
  | some (.Ethereum b, _) => .ok (b, .Ethereum)
  | none => .error .malformedKey

/-- `NetworkSpecsKey::key`. -/
def NetworkSpecsKey.key (k : NetworkSpecsKey) : Bytes := k.raw

/-! ## `MultiSigner` and key helpers (`helpers.rs`, `keyring.rs`) -/

/-- `sp_runtime::MultiSigner`: a public key tagged with its key type.
`ed25519`/`sr25519` keys are 32 bytes, compressed `ecdsa` keys 33 bytes;
the raw bytes are carried as `Bytes`. -/
inductive MultiSigner
  | Ed25519 (pk : Bytes)
  | Sr25519 (pk : Bytes)
  | Ecdsa (pk : Bytes)
  deriving DecidableEq

/-- `multisigner_to_public` from `helpers.rs`. -/
def multisigner_to_public : MultiSigner → Bytes
  | .Ed25519 a => a
  | .Sr25519 a => a
  | .Ecdsa a => a

/-- `multisigner_to_encryption` from `helpers.rs`: note there is no
`Ethereum` result - the `Ecdsa` variant always maps to `Encryption::Ecdsa`. -/
def multisigner_to_encryption : MultiSigner → Encryption
  | .Ed25519 _ => .Ed25519
  | .Sr25519 _ => .Sr25519
  | .Ecdsa _ => .Ecdsa

/-- `get_multisigner` from `helpers.rs`: the `try_into` to `[u8; 32]`
(resp. `[u8; 33]`) succeeds exactly when the slice has that length,
otherwise the conversion error is mapped to `WrongPublicKeyLength`.
`Ecdsa` and `Ethereum` share one arm and both produce a
`MultiSigner::Ecdsa`. -/
def get_multisigner (public : Bytes) (encryption : Encryption) :
    Except DefinitionError MultiSigner :=
  match encryption with
  | .Ed25519 =>
    if public.length = 32 then .ok (.Ed25519 public)
    else .error .wrongPublicKeyLength
  | .Sr25519 =>
    if public.length = 32 then .ok (.Sr25519 public)
    else .error .wrongPublicKeyLength
  | .Ecdsa | .Ethereum =>
    if public.length = 33 then .ok (.Ecdsa public)
    else .error .wrongPublicKeyLength

/-- The exact raw-key length each scheme requires, as stated by the spec
(32 bytes for Ed25519/Sr25519, 33 bytes for Ecdsa/Ethereum).  This is the
spec-side yardstick that `get_multisigner` is compared against. -/
def expectedKeyLength : Encryption → Nat
  | .Ed25519 => 32
  | .Sr25519 => 32
  | .Ecdsa => 33
  | .Ethereum => 33

/-- `AddressKey` from `keyring.rs`: a `MultiSigner` plus an optional
genesis hash (absent only for a root identity). -/
structure AddressKey where
  multisigner : MultiSigner
  genesis_hash : Option Bytes
  deriving DecidableEq

/-- `AddressKey::new`. -/
def AddressKey.new (multisigner : MultiSigner) (genesis_hash : Option Bytes) :
    AddressKey :=
  ⟨multisigner, genesis_hash⟩

/-- `AddressKey::from_parts`: build the `MultiSigner` with
`get_multisigner` (its `DefinitionError` being converted by `?` into the
`IdentityError` wrapper) and pair it with the optional genesis hash. -/
def AddressKey.from_parts (public : Bytes) (encryption : Encryption)
    (genesis_hash : Option Bytes) : Except IdentityError AddressKey :=
  match get_multisigner public encryption with
  | .ok multisigner => .ok (AddressKey.new multisigner genesis_hash)
  | .error e => .error (.definitionError e)

/-- `AddressKey::public_key_encryption`: read the public key and scheme
back from the stored `MultiSigner`.  The match is total and always
succeeds; the `Ecdsa` variant always reports `Encryption::Ecdsa`. -/
def AddressKey.public_key_encryption (k : AddressKey) :
    Except IdentityError (Bytes × Encryption) :=
  match k.multisigner with
  | .Ed25519 b => .ok (b, .Ed25519)
  | .Sr25519 b => .ok (b, .Sr25519)
  | .Ecdsa b => .ok (b, .Ecdsa)

/-- `AddressKey::multi_signer`. -/
def AddressKey.multi_signer (k : AddressKey) : MultiSigner := k.multisigner

/-! ## Base58 / SS58 address formatting (`helpers.rs`)

`to_ss58check_with_version` is `sp_core`'s SS58 codec: the version bytes,
the raw public key and a 2-byte checksum (the first two bytes of a
BLAKE2b-512 hash over `b"SS58PRE"` followed by the payload) are
concatenated and base58-encoded.  The external pieces (`bs58`, BLAKE2b,
Keccak-256, secp256k1 point decompression) are embedded below following
their published algorithms. -/

/-- 64-bit modulus. -/
def U64 : Nat := 2 ^ 64

/-- Right-rotate a 64-bit word by `n` (for `0 ≤ n < 64`). -/
def rotr64 (x n : Nat) : Nat := ((x / 2 ^ n) + (x % 2 ^ n) * 2 ^ (64 - n)) % U64

/-- Left-rotate a 64-bit word by `n` (for `0 ≤ n < 64`). -/
def rotl64 (x n : Nat) : Nat := (x % 2 ^ (64 - n)) * 2 ^ n + x / 2 ^ (64 - n)

/-- Little-endian bytes to machine word. -/
def leWord (bs : Bytes) : Nat := bs.foldr (fun b acc => b + 256 * acc) 0

/-- One 64-bit word as 8 little-endian bytes. -/
def wordLEBytes (w : Nat) : Bytes := (List.range 8).map (fun i => (w / 256 ^ i) % 256)

/-- BLAKE2b initialisation vector (RFC 7693). -/
def blake2bIV : List Nat :=
  [7640891576956012808, 13503953896175478587,
   4354685564936845355, 11912009170470909681,
   5840696475078001361, 11170449401992604703,
   2270897969802886507, 6620516959819538809]

/-- BLAKE2b message schedule (RFC 7693). -/
def blake2bSigma : List (List Nat) :=
  [[0, 1, 2, 3, 4, 5, 6, 7, 8, 9, 10, 11, 12, 13, 14, 15],
   [14, 10, 4, 8, 9, 15, 13, 6, 1, 12, 0, 2, 11, 7, 5, 3],
   [11, 8, 12, 0, 5, 2, 15, 13, 10, 14, 3, 6, 7, 1, 9, 4],
   [7, 9, 3, 1, 13, 12, 11, 14, 2, 6, 5, 10, 4, 0, 15, 8],
   [9, 0, 5, 7, 2, 4, 10, 15, 14, 1, 11, 12, 6, 8, 3, 13],
   [2, 12, 6, 10, 0, 11, 8, 3, 4, 13, 7, 5, 15, 14, 1, 9],
   [12, 5, 1, 15, 14, 13, 4, 10, 0, 7, 6, 3, 9, 2, 8, 11],
   [13, 11, 7, 14, 12, 1, 3, 9, 5, 0, 15, 4, 8, 6, 2, 10],
   [6, 15, 14, 9, 11, 3, 0, 8, 12, 2, 13, 7, 1, 4, 10, 5],
   [10, 2, 8, 4, 7, 6, 1, 5, 15, 11, 9, 14, 3, 12, 13, 0]]

/-- BLAKE2b mixing function G on the 16-word work vector. -/
def blakeG (v : List Nat) (a b c d x y : Nat) : List Nat :=
  let va := (v.getD a 0 + v.getD b 0 + x) % U64
  let vd := rotr64 (Nat.xor (v.getD d 0) va) 32
  let vc := (v.getD c 0 + vd) % U64
  let vb := rotr64 (Nat.xor (v.getD b 0) vc) 24
  let va2 := (va + vb + y) % U64
  let vd2 := rotr64 (Nat.xor vd va2) 16
  let vc2 := (vc + vd2) % U64
  let vb2 := rotr64 (Nat.xor vb vc2) 63
  (((v.set a va2).set b vb2).set c vc2).set d vd2

/-- One BLAKE2b round with message block `m`. -/
def blakeRound (m : List Nat) (v : List Nat) (i : Nat) : List Nat :=
  let s := blake2bSigma.getD (i % 10) []
  let mAt := fun j => m.getD (s.getD j 0) 0
  let v1 := blakeG v 0 4 8 12 (mAt 0) (mAt 1)
  let v2 := blakeG v1 1 5 9 13 (mAt 2) (mAt 3)
  let v3 := blakeG v2 2 6 10 14 (mAt 4) (mAt 5)
  let v4 := blakeG v3 3 7 11 15 (mAt 6) (mAt 7)
  let v5 := blakeG v4 0 5 10 15 (mAt 8) (mAt 9)
  let v6 := blakeG v5 1 6 11 12 (mAt 10) (mAt 11)
  let v7 := blakeG v6 2 7 8 13 (mAt 12) (mAt 13)
  blakeG v7 3 4 9 14 (mAt 14) (mAt 15)

/-- BLAKE2b compression function F (message counter `t`, final flag). -/
def blakeCompress (h : List Nat) (m : List Nat) (t : Nat) (last : Bool) : List Nat :=
  let v0 := h ++ blake2bIV
  let v1 := v0.set 12 (Nat.xor (v0.getD 12 0) (t % U64))
  let v2 := v1.set 13 (Nat.xor (v1.getD 13 0) (t / U64))
  let v3 := if last then v2.set 14 (Nat.xor (v2.getD 14 0) (U64 - 1)) else v2
  let vFinal := (List.range 12).foldl (blakeRound m) v3
  (List.range 8).map (fun i => Nat.xor (h.getD i 0) (Nat.xor (vFinal.getD i 0) (vFinal.getD (i + 8) 0)))

/-- Split a 128-byte block into its 16 little-endian words. -/
def block16Words (bs : Bytes) : List Nat :=
  (List.range 16).map (fun i => leWord ((bs.drop (8 * i)).take 8))

/-- Absorb the message into the BLAKE2b state, 128 bytes at a time; the
last (possibly empty) chunk is zero-padded and compressed with the final
flag set. -/
def blake2bLoop (h : List Nat) (msg : Bytes) (tPrev : Nat) : List Nat :=
  if msg.length ≤ 128 then
    blakeCompress h (block16Words (msg ++ List.replicate (128 - msg.length) 0))
      (tPrev + msg.length) true
  else
    blake2bLoop (blakeCompress h (block16Words (msg.take 128)) (tPrev + 128) false)
      (msg.drop 128) (tPrev + 128)
  termination_by msg.length
  decreasing_by simp [List.length_drop]; omega

/-- BLAKE2b-512 (unkeyed, 64-byte digest): the parameter block xors
`0x01010040` into the first IV word. -/
def blake2b512 (msg : Bytes) : Bytes :=
  let h0 := blake2bIV.set 0 (Nat.xor (blake2bIV.getD 0 0) 0x01010040)
  ((blake2bLoop h0 msg 0).map wordLEBytes).flatten

/-- The base58 alphabet used by `bs58` (Bitcoin alphabet). -/
def BASE58_ALPHABET : List Char :=
  ("123456789ABCDEFGHJKLMNPQRSTUVWXYZabcdefghijkmnopqrstuvwxyz").data

/-- Digit to base58 character. -/
def b58Char (d : Nat) : Char := BASE58_ALPHABET.getD d '1'

/-- Big-endian bytes as a natural number. -/
def bytesToNat (bs : Bytes) : Nat := bs.foldl (fun a b => a * 256 + b) 0

/-- Base-58 digits of `n`, most significant first (empty for 0). -/
def natToB58Digits (n : Nat) : List Nat :=
  if hn : n = 0 then [] else natToB58Digits (n / 58) ++ [n % 58]
  termination_by n
  decreasing_by exact Nat.div_lt_self (Nat.pos_of_ne_zero hn) (by omega)

/-- Leading zero bytes of a byte string. -/
def countLeadingZeroBytes : Bytes → Nat
  | [] => 0
  | b :: r => if b = 0 then countLeadingZeroBytes r + 1 else 0

/-- `bs58::encode`: one `'1'` per leading zero byte, then the base-58
digits of the remaining big-endian number. -/
def base58Encode (bs : Bytes) : List Char :=
  List.replicate (countLeadingZeroBytes bs) '1' ++ (natToB58Digits (bytesToNat bs)).map b58Char

/-- SS58 version bytes: one byte for idents 0–63, two bytes (with the
`0b01` marker) for idents 64–16383 (`sp_core` `to_ss58check_with_version`). -/
def versionBytes (version : Nat) : Bytes :=
  let ident := version % 16384
  if ident < 64 then [ident]
  else [(ident % 256) / 4 + 64, ident / 256 + (ident % 4) * 64]

/-- The `b"SS58PRE"` checksum context bytes. -/
def SS58PRE : Bytes := [83, 83, 53, 56, 80, 82, 69]

/-- `ss58hash`: BLAKE2b-512 over `SS58PRE ++ data`. -/
def ss58hash (data : Bytes) : Bytes := blake2b512 (SS58PRE ++ data)

/-- `sp_core` `to_ss58check_with_version`: version bytes, key bytes and a
2-byte checksum, base58-encoded. -/
def to_ss58check_with_version (pubkey : Bytes) (version : Nat) : String :=
  let v := versionBytes version ++ pubkey
  let r := ss58hash v
  String.mk (base58Encode (v ++ r.take 2))

/-- `to_ss58check`: the default (`SubstrateAccount`) ident 42. -/
def to_ss58check (pubkey : Bytes) : String := to_ss58check_with_version pubkey 42

/-! ## Ethereum address derivation (`helpers.rs`) -/

/-- Keccak round constants. -/
def keccakRC : List Nat :=
  [1, 32898, 9223372036854808714,
   9223372039002292224, 32907, 2147483649,
   9223372039002292353, 9223372036854808585, 138,
   136, 2147516425, 2147483658,
   2147516555, 9223372036854775947, 9223372036854808713,
   9223372036854808579, 9223372036854808578, 9223372036854775936,
   32778, 9223372039002259466, 9223372039002292353,
   9223372036854808704, 2147483649, 9223372039002292232]

/-- Keccak rho rotation offsets, indexed by `x + 5 * y`. -/
def keccakROT : List Nat :=
  [0, 1, 62, 28, 27]
    ++ [36, 44, 6, 55, 20]
    ++ [3, 10, 43, 25, 39]
    ++ [41, 45, 15, 21, 8]
    ++ [18, 2, 61, 56, 14]

/-- One Keccak-f[1600] round (theta, rho, pi, chi, iota) on the 25-lane
state. -/
def keccakRound (st : List Nat) (rc : Nat) : List Nat :=
  let c := (List.range 5).map (fun x =>
    Nat.xor (st.getD x 0) (Nat.xor (st.getD (x + 5) 0)
      (Nat.xor (st.getD (x + 10) 0) (Nat.xor (st.getD (x + 15) 0) (st.getD (x + 20) 0)))))
  let d := (List.range 5).map (fun x =>
    Nat.xor (c.getD ((x + 4) % 5) 0) (rotl64 (c.getD ((x + 1) % 5) 0) 1))
  let a1 := (List.range 25).map (fun i => Nat.xor (st.getD i 0) (d.getD (i % 5) 0))
  let b := (List.range 25).foldl (fun acc i =>
    let x := i % 5
    let y := i / 5
    acc.set (y + 5 * ((2 * x + 3 * y) % 5)) (rotl64 (a1.getD i 0) (keccakROT.getD i 0)))
    (List.replicate 25 0)
  let a2 := (List.range 25).map (fun i =>
    let x := i % 5
    let y := i / 5
    Nat.xor (b.getD i 0)
      (Nat.land (Nat.xor (b.getD ((x + 1) % 5 + 5 * y) 0) (U64 - 1)) (b.getD ((x + 2) % 5 + 5 * y) 0)))
  a2.set 0 (Nat.xor (a2.getD 0 0) rc)

/-- The full 24-round Keccak-f[1600] permutation. -/
def keccakF (st : List Nat) : List Nat := keccakRC.foldl keccakRound st

/-- Absorb one 136-byte block into the state and permute. -/
def keccakAbsorbBlock (st : List Nat) (chunk : Bytes) : List Nat :=
  keccakF ((List.range 25).map (fun i =>
    if i < 17 then Nat.xor (st.getD i 0) (leWord ((chunk.drop (8 * i)).take 8))
    else st.getD i 0))

/-- Absorb a (padded, block-aligned, non-empty) message. -/
def keccakAbsorb (st : List Nat) (msg : Bytes) : List Nat :=
  if msg.length ≤ 136 then keccakAbsorbBlock st msg
  else keccakAbsorb (keccakAbsorbBlock st (msg.take 136)) (msg.drop 136)
  termination_by msg.length
  decreasing_by simp [List.length_drop]; omega

/-- Keccak-256 (the legacy pre-SHA-3 padding `0x01 .. 0x80`, as used by
Ethereum and `sp_core::KeccakHasher`): 136-byte rate, 32-byte digest. -/
def keccak256 (msg : Bytes) : Bytes :=
  let q := 136 - msg.length % 136
  let padded :=
    if q = 1 then msg ++ [0x81]
    else msg ++ 0x01 :: (List.replicate (q - 2) 0 ++ [0x80])
  let st := keccakAbsorb (List.replicate 25 0) padded
  ((st.take 4).map wordLEBytes).flatten

/-- The secp256k1 base field modulus. -/
def pSecp : Nat := 2 ^ 256 - 2 ^ 32 - 977

/-- Binary modular exponentiation. -/
def modPow (b e m : Nat) : Nat :=
  match e with
  | 0 => 1 % m
  | k + 1 =>
    let h := modPow b ((k + 1) / 2) m
    if (k + 1) % 2 = 0 then h * h % m else h * h % m * b % m
  termination_by e
  decreasing_by exact Nat.div_lt_self (Nat.succ_pos k) (by omega)

/-- A natural number as 32 big-endian bytes. -/
def natToBe32 (n : Nat) : Bytes := (List.range 32).map (fun i => (n / 256 ^ (31 - i)) % 256)

/-- `libsecp256k1::PublicKey::parse_compressed` followed by
`serialize`: check the `02`/`03` parity tag and the 32-byte x
coordinate, recover y as a square root of `x^3 + 7` (failing when no
root exists, i.e. the point is not on the curve), and return the
65-byte uncompressed form `04 ‖ x ‖ y`.  `none` models a parse error. -/
def secpDecompress (bs : Bytes) : Option Bytes :=
  match bs with
  | [] => none
  | tag :: rest =>
    if rest.length = 32 ∧ (tag = 2 ∨ tag = 3) then
      let x := bytesToNat rest
      if x < pSecp then
        let rhs := (x * x % pSecp * x + 7) % pSecp
        let y0 := modPow rhs ((pSecp + 1) / 4) pSecp
        if y0 * y0 % pSecp = rhs then
          let y := if y0 % 2 = tag % 2 then y0 else pSecp - y0
          some (4 :: (natToBe32 x ++ natToBe32 y))
        else none
      else none
    else none

/-- `ecdsa_public_to_eth_address` from `helpers.rs`: decompress the
public key, drop the leading `04`, Keccak-256 the 64 coordinate bytes
and keep the last 20 bytes (`H160::from(H256)`). -/
def ecdsa_public_to_eth_address (public : Bytes) : Except DefinitionError Bytes :=
  match secpDecompress public with
  | some decompressed => .ok ((keccak256 (decompressed.drop 1)).drop 12)
  | none => .error .secp256k1Error

/-- Hex character (lowercase) of a digit. -/
def hexCharOfNat (n : Nat) : Char :=
  if n < 10 then Char.ofNat (48 + n) else Char.ofNat (87 + n)

/-- Lowercase hex rendering of a byte string (`HexDisplay`). -/
def bytesToHexChars (bs : Bytes) : List Char :=
  bs.flatMap (fun b => [hexCharOfNat (b / 16), hexCharOfNat (b % 16)])

/-- `print_ethereum_address` from `helpers.rs`: `format!("0x{:?}", ...)`
over the derived `H160`.  The source `.expect`s the decompression; the
panic on an invalid key is modelled as `none`. -/
def print_ethereum_address (public : Bytes) : Option String :=
  match ecdsa_public_to_eth_address public with
  | .ok account => some (String.mk ('0' :: 'x' :: bytesToHexChars account))
  | .error _ => none

/-- `print_multisigner_as_base58_or_eth` from `helpers.rs`.  The bare
ss58-registry idents resolved by `Ss58AddressFormat::try_from` are
`BareEd25519` = 3 and `BareSr25519` = 1; `to_ss58check` uses the default
ident 42.  The Ethereum renderer is reached only from the
`MultiSigner::Ecdsa` arms, and only when the scheme argument is
`Ethereum`.  The `Option` propagates the possible
`print_ethereum_address` panic; every other branch is `some`. -/
def print_multisigner_as_base58_or_eth (multi_signer : MultiSigner)
    (optional_pre : Option Nat) (encryption : Encryption) : Option String :=
  match optional_pre with
  | some base58pre =>
    match multi_signer with
    | .Ed25519 pubkey => some (to_ss58check_with_version pubkey base58pre)
    | .Sr25519 pubkey => some (to_ss58check_with_version pubkey base58pre)
    | .Ecdsa pubkey =>
      if encryption = .Ethereum then print_ethereum_address pubkey
      else some (to_ss58check_with_version pubkey base58pre)
  | none =>
    match multi_signer with
    | .Ed25519 pubkey => some (to_ss58check_with_version pubkey 3)
    | .Sr25519 pubkey => some (to_ss58check_with_version pubkey 1)
    | .Ecdsa pubkey =>
      if encryption = .Ethereum then print_ethereum_address pubkey
      else some (to_ss58check pubkey)

/-! ## Path parsing (`main.rs`, `REG_PATH`)

`REG_PATH` is the anchored pattern
`^(?P<path>(//?[^/]+)*)(///(?P<password>.+))?$` and `main.rs` reads the
captures as `(path group, password group present?)`, with a failed match
yielding `("", false)`.  The matcher below is the deterministic
equivalent of that regex: a junction is `//` or `/` followed by one or
more non-`/` characters (`[^/]+` is greedy, so each junction takes the
maximal run), and the junction star never needs backtracking — a
junction arm can never consume the start of a `///` password introducer
(after `//` the next character would have to be non-`/`), and dropping a
junction can never create one (the dropped text starts `/x` or `//x`
with `x ≠ '/'`), so the greedy first pass finds the match exactly when
one exists.  The password `.+` excludes `'\n'` (the Rust regex default)
and must be non-empty. -/

/-- Consume the maximal `(//?[^/]+)*` run: returns the consumed
characters and the remainder.  Fuel-driven so the recursion is
structural; `junctions` instantiates the fuel with the input length,
which is always sufficient since every step consumes at least one
character. -/
def junctionsFuel : Nat → List Char → List Char × List Char
  | 0, l => ([], l)
  | Nat.succ fuel, l =>
    match l with
    | '/' :: '/' :: c :: rest =>
      if c = '/' then ([], l)
      else
        let seg := (c :: rest).takeWhile (fun ch => ch ≠ '/')
        let after := (c :: rest).dropWhile (fun ch => ch ≠ '/')
        let step := junctionsFuel fuel after
        ('/' :: '/' :: (seg ++ step.1), step.2)
    | '/' :: c :: rest =>
      if c = '/' then ([], l)
      else
        let seg := (c :: rest).takeWhile (fun ch => ch ≠ '/')
        let after := (c :: rest).dropWhile (fun ch => ch ≠ '/')
        let step := junctionsFuel fuel after
        ('/' :: (seg ++ step.1), step.2)
    | _ => ([], l)

/-- The `(//?[^/]+)*` prefix of `l` and the rest. -/
def junctions (l : List Char) : List Char × List Char :=
  junctionsFuel l.length l

/-- The whole capture step of `create_address_with_seed_phrase`:
`REG_PATH.captures` plus the `(cropped_path, has_pwd)` extraction.  A
whole-string match needs the remainder after the junctions to be empty
(no password) or `///` followed by a non-empty run of non-newline
characters (password present); any other remainder means
`captures` returns `None` and the code falls back to `("", false)`. -/
def parseDerivationPath (derivation_path : String) : String × Bool :=
  let parts := junctions derivation_path.data
  match parts.2 with
  | [] => (String.mk parts.1, false)
  | '/' :: '/' :: '/' :: pwd =>
    if pwd ≠ [] ∧ pwd.all (fun ch => ch ≠ Char.ofNat 10) then (String.mk parts.1, true)
    else ("", false)
  | _ => ("", false)

/-! ## Records and network specs (`users.rs`, `definitions.rs`,
`network_spec.rs`) -/

/-- `NetworkSpecs`. -/
structure NetworkSpecs where
  base58pre : Nat
  decimals : Nat
  encryption : Encryption
  genesis_hash : Bytes
  logo : String
  name : String
  path_id : String
  secondary_color : String
  title : String
  unit : String
  color : String
  address : String
  deriving DecidableEq

/-- `AddressDetails` from `users.rs`. -/
structure AddressDetails where
  seed_name : String
  path : String
  has_pwd : Bool
  network_id : Option NetworkSpecsKey
  encryption : Encryption
  secret_exposed : Bool
  deriving DecidableEq

/-- `IdentityRecord` from `definitions.rs`. -/
structure IdentityRecord where
  seed_name : String
  encryption : Encryption
  public_key : Bytes
  path : String
  network_genesis_hash : Bytes
  deriving DecidableEq

/-- `IdentityRecord::get`. -/
def IdentityRecord.get (seed_name : String) (encryption : Encryption)
    (public_key : Bytes) (path : String) (network_genesis_hash : Bytes) :
    IdentityRecord :=
  ⟨seed_name, encryption, public_key, path, network_genesis_hash⟩

/-! ## Address derivation (`main.rs`) -/

/-- The behaviour of the external scheme-specific derivers
(`ed25519::Pair::from_string` etc. composed with `.public()`): from the
full secret string to the raw public key bytes, or a
`SecretStringError`.  The pipeline below is parametric in this record,
so theorems quantify over every possible behaviour of the external
crates; concrete instantiations appear in the witnesses. -/
structure Derivers where
  ed : String → Except SecretStringError Bytes
  sr : String → Except SecretStringError Bytes
  ecdsa : String → Except SecretStringError Bytes

/-- `String::zeroize` on the working buffer: every byte of the backing
memory is overwritten with zeros.  The buffer is modelled by its
character content; zeroization maps each position to the NUL character. -/
def zeroizeString (s : String) : String :=
  String.mk (s.data.map (fun _ => Char.ofNat 0))

/-- `full_address_to_multisigner` from `main.rs`, with the buffer made
explicit: the function owns `full_address`, matches on the scheme to run
the corresponding deriver (`Ecdsa` and `Ethereum` share the ecdsa arm),
zeroizes the buffer, and returns the result.  The second component is
the final state of the buffer's memory — there is a single exit point in
the source and `full_address.zeroize()` dominates it. -/
def full_address_to_multisigner (d : Derivers) (full_address : String)
    (encryption : Encryption) : Except IdentityError MultiSigner × String :=
  let multisigner_result : Except IdentityError MultiSigner :=
    match encryption with
    | .Ed25519 =>
      match d.ed full_address with
      | .ok a => .ok (.Ed25519 a)
      | .error e => .error (.secretStringError e)
    | .Sr25519 =>
      match d.sr full_address with
      | .ok a => .ok (.Sr25519 a)
      | .error e => .error (.secretStringError e)
    | .Ecdsa | .Ethereum =>
      match d.ecdsa full_address with
      | .ok a => .ok (.Ecdsa a)
      | .error e => .error (.secretStringError e)
  (multisigner_result, zeroizeString full_address)

/-- `do_create_address_with_seed_phrase` from `main.rs`: reject an empty
seed name, then assemble the records.  With network specs present a
`NetworkSpecsKey`, an (unused) `AddressKey` and an `IdentityRecord` are
built; the `AddressDetails` takes the network's encryption, defaulting
to `Sr25519` without specs, and always starts with
`secret_exposed = false`. -/
def do_create_address_with_seed_phrase (cropped_path : String)
    (network_specs : Option NetworkSpecs) (seed_name : String)
    (multisigner : MultiSigner) (has_pwd : Bool) :
    Except IdentityError (Option AddressDetails × Option IdentityRecord) :=
  if seed_name.isEmpty then .error .emptySeedName
  else
    let network_specs_key : Option NetworkSpecsKey :=
      network_specs.map (fun ns => NetworkSpecsKey.from_parts ns.genesis_hash ns.encryption)
    let identity_record : Option IdentityRecord :=
      network_specs.map (fun ns =>
        IdentityRecord.get seed_name ns.encryption (multisigner_to_public multisigner)
          cropped_path ns.genesis_hash)
    let _address_key : AddressKey :=
      AddressKey.new multisigner (network_specs.map (fun ns => ns.genesis_hash))
    let address_details : AddressDetails :=
      { seed_name := seed_name
        path := cropped_path
        has_pwd := has_pwd
        network_id := network_specs_key
        encryption := ((network_specs.map (fun ns => ns.encryption)).getD .Sr25519)
        secret_exposed := false }
    .ok (some address_details, identity_record)

/-- `create_address_with_seed_phrase` from `main.rs`, with the secret
working buffer's final state as an explicit second component (`none`
when the early `EmptySeed` return fires before the buffer exists).  The
buffer is the pre-sized concatenation of seed phrase and raw derivation
path; it is passed by value into `full_address_to_multisigner`, which
zeroizes it on every path. -/
def create_address_with_seed_phrase (d : Derivers)
    (network_specs : Option NetworkSpecs) (derivation_path : String)
    (seed_phrase : String) (seed_name : String) :
    Except IdentityError (Option AddressDetails × Option IdentityRecord) × Option String :=
  if seed_phrase.isEmpty then (.error .emptySeed, none)
  else
    let full_address := seed_phrase ++ derivation_path
    let encryption := (network_specs.map (fun ns => ns.encryption)).getD .Sr25519
    let fm := full_address_to_multisigner d full_address encryption
    match fm.1 with
    | .error e => (.error e, some fm.2)
    | .ok multisigner =>
      let parsed := parseDerivationPath derivation_path
      match do_create_address_with_seed_phrase parsed.1 network_specs seed_name
          multisigner parsed.2 with
      | .ok res => (.ok res, some fm.2)
      | .error e => (.error e, some fm.2)

/-- `CreateAddressPayload` from `main.rs`. -/
inductive CreateAddressPayload
  | socialProvider
  | emailAndPassword
  | seedPhrase (derivation_path : String) (seed_phrase : String) (seed_name : String)

/-- `create_address` from `main.rs`: dispatch on the payload; the
`SocialProvider` and `EmailAndPassword` arms hit the source's
`unimplemented!()` panic, modelled as `none`.  The working-buffer state
is internal to the callee and dropped here, as in the source. -/
def create_address (d : Derivers) (network_specs : Option NetworkSpecs)
    (payload : CreateAddressPayload) :
    Option (Except IdentityError (Option AddressDetails × Option IdentityRecord)) :=
  match payload with
  | .seedPhrase derivation_path seed_phrase seed_name =>
    some (create_address_with_seed_phrase d network_specs derivation_path
      seed_phrase seed_name).1
  | _ => none

deriving instance DecidableEq for Except

/-! ## Spec-side predicates

Boolean re-statements of the spec's wording, used as the yardsticks the
source-translated functions are compared against in the theorems. -/

/-- The spec's notion of one hexadecimal digit (`0-9`, `a-f`, `A-F`). -/
def isHexDigitChar (c : Char) : Bool :=
  (48 ≤ c.toNat && c.toNat ≤ 57) || (97 ≤ c.toNat && c.toNat ≤ 102)
    || (65 ≤ c.toNat && c.toNat ≤ 70)

/-- The spec's notion of a valid hexadecimal input string: after removing
an optional `0x`, an even number of hex digits. -/
def isValidHexInput (s : String) : Bool :=
  ((strip0x s.data).length % 2 == 0) && (strip0x s.data).all isHexDigitChar

/-- "Exactly one of the 4 tagged shapes": one scheme tag byte in 0–3
followed by exactly 32 hash bytes and nothing else. -/
def isExactTaggedShape (b : Bytes) : Bool :=
  match b with
  | t :: rest => (t ≤ 3 : Bool) && (rest.length == 32)
  | [] => false

/-- The scheme each valid tag byte stands for (tags above 3 never reach
this table under the decoder's guard). -/
def tagEncryption : Nat → Encryption
  | 0 => .Ed25519
  | 1 => .Sr25519
  | 2 => .Ecdsa
  | _ => .Ethereum

/-- A `0x`-prefixed string (the shape of an Ethereum hex address). -/
def isEthHexStr (s : String) : Bool :=
  match s.data with
  | a :: b :: _ => a == '0' && b == 'x'
  | _ => false

/-- A non-empty string all of whose characters come from the base58
alphabet (the shape of an SS58 address). -/
def isBase58Str (s : String) : Bool :=
  (!s.data.isEmpty) && s.data.all (fun c => decide (c ∈ BASE58_ALPHABET))

/-! ## Concrete deriver behaviours used by witnesses -/

/-- A deriver behaviour that always succeeds, returning constant
correctly-sized public keys. -/
def okDerivers : Derivers :=
  ⟨fun _ => .ok (List.replicate 32 1), fun _ => .ok (List.replicate 32 1),
   fun _ => .ok (List.replicate 33 1)⟩

/-- A deriver behaviour that always rejects the secret string with
`InvalidPhrase` — the actual behaviour of `sp_core`'s
`Pair::from_string` on any phrase that is not a valid BIP-39 mnemonic
(such as the literal string `"seedphrase"`). -/
def failDerivers : Derivers :=
  ⟨fun _ => .error .invalidPhrase, fun _ => .error .invalidPhrase,
   fun _ => .error .invalidPhrase⟩

/-- A concrete network-specs record for witnesses. -/
def testSpecs : NetworkSpecs :=
  { base58pre := 2, decimals := 12, encryption := .Sr25519,
    genesis_hash := List.replicate 32 9, logo := "l", name := "n", path_id := "p",
    secondary_color := "s", title := "t", unit := "u", color := "c", address := "a" }

/-- The `AddressDetails` produced by the concrete witness run. -/
def c7resAD : AddressDetails :=
  { seed_name := "n", path := "//x", has_pwd := false,
    network_id := some (NetworkSpecsKey.from_parts (List.replicate 32 9) .Sr25519),
    encryption := .Sr25519, secret_exposed := false }

/-- The `IdentityRecord` produced by the concrete witness run. -/
def c7resIR : IdentityRecord :=
  IdentityRecord.get ("n") .Sr25519 (List.replicate 32 1) ("//x") (List.replicate 32 9)

/-! ## Helper lemmas -/

theorem hexDigitValue_isSome (c : Char) : (hexDigitValue c).isSome = isHexDigitChar c := by
  unfold hexDigitValue isHexDigitChar
  split_ifs with h1 h2 h3 <;> simp_all

theorem hexDecodeChars_isSome : ∀ l : List Char,
    (hexDecodeChars l).isSome = ((l.length % 2 == 0) && l.all isHexDigitChar)
  | [] => by simp [hexDecodeChars]
  | [a] => by simp [hexDecodeChars]
  | a :: b :: rest => by
    have ih := hexDecodeChars_isSome rest
    have hlen : (rest.length + 1 + 1) % 2 = rest.length % 2 := by omega
    cases hda : hexDigitValue a <;> cases hdb : hexDigitValue b <;>
      cases hdr : hexDecodeChars rest <;>
      simp_all [hexDecodeChars, ← hexDigitValue_isSome, hlen]

theorem natToB58Digits_lt (n : Nat) : ∀ d ∈ natToB58Digits n, d < 58 := by
  induction n using Nat.strong_induction_on with
  | _ n ih =>
    rw [natToB58Digits]
    split
    · simp
    · next hne =>
      intro d hd
      rcases List.mem_append.mp hd with h | h
      · exact ih (n / 58) (Nat.div_lt_self (Nat.pos_of_ne_zero hne) (by omega)) d h
      · simp at h
        omega

theorem b58Char_mem (d : Nat) : b58Char d ∈ BASE58_ALPHABET := by
  unfold b58Char
  by_cases h : d < BASE58_ALPHABET.length
  · rw [List.getD_eq_getElem _ _ h]
    exact List.getElem_mem h
  · rw [List.getD_eq_default _ _ (by omega)]
    decide

theorem base58Encode_mem (bs : Bytes) : ∀ c ∈ base58Encode bs, c ∈ BASE58_ALPHABET := by
  intro c hc
  unfold base58Encode at hc
  rcases List.mem_append.mp hc with h | h
  · rw [List.eq_of_mem_replicate h]
    decide
  · rcases List.mem_map.mp h with ⟨d, _, rfl⟩
    exact b58Char_mem d

theorem foldl_byte_pos (l : Bytes) :
    ∀ a : Nat, 0 < a → 0 < l.foldl (fun x y => x * 256 + y) a := by
  induction l with
  | nil => intro a ha; simpa using ha
  | cons b r ih =>
    intro a ha
    simp only [List.foldl_cons]
    exact ih (a * 256 + b) (by positivity)

theorem base58Encode_ne_nil (bs : Bytes) (h : bs ≠ []) : base58Encode bs ≠ [] := by
  rcases bs with _ | ⟨b, r⟩
  · exact absurd rfl h
  · unfold base58Encode
    rcases b with _ | m
    · simp [countLeadingZeroBytes]
    · have hpos : 0 < bytesToNat ((m + 1) :: r) := by
        unfold bytesToNat
        simp only [List.foldl_cons]
        exact foldl_byte_pos r (0 * 256 + (m + 1)) (by omega)
      have hne : natToB58Digits (bytesToNat ((m + 1) :: r)) ≠ [] := by
        rw [natToB58Digits]
        split
        · omega
        · simp
      intro hcontra
      rcases List.append_eq_nil.mp hcontra with ⟨_, h2⟩
      exact hne (List.map_eq_nil_iff.mp h2)

theorem base58_string_shape (bs : Bytes) (h : bs ≠ []) :
    isEthHexStr (String.mk (base58Encode bs)) = false
    ∧ isBase58Str (String.mk (base58Encode bs)) = true := by
  constructor
  · unfold isEthHexStr
    cases henc : base58Encode bs with
    | nil => rfl
    | cons c cs =>
      have hc : c ∈ BASE58_ALPHABET := base58Encode_mem bs c (henc ▸ List.mem_cons_self c cs)
      have hc0 : c ≠ '0' := by
        intro rfl0
        rw [rfl0] at hc
        revert hc
        decide
      cases cs with
      | nil => rfl
      | cons b rest =>
        simp [hc0]
  · unfold isBase58Str
    have hne := base58Encode_ne_nil bs h
    simp [List.isEmpty_iff, hne, List.all_eq_true]
    exact base58Encode_mem bs

theorem versionBytes_ne_nil (v : Nat) : versionBytes v ≠ [] := by
  unfold versionBytes
  by_cases h : v % 16384 < 64 <;> simp [h]

theorem ss58_shape (pubkey : Bytes) (version : Nat) :
    isEthHexStr (to_ss58check_with_version pubkey version) = false
    ∧ isBase58Str (to_ss58check_with_version pubkey version) = true := by
  unfold to_ss58check_with_version
  apply base58_string_shape
  intro hcontra
  rcases List.append_eq_nil.mp hcontra with ⟨h1, _⟩
  rcases List.append_eq_nil.mp h1 with ⟨h2, _⟩
  exact versionBytes_ne_nil version h2

theorem eth_print_shape (pk : Bytes) :
    (print_ethereum_address pk).all isEthHexStr = true
    ∧ (print_ethereum_address pk).all (fun s => !isBase58Str s) = true := by
  unfold print_ethereum_address
  cases h : ecdsa_public_to_eth_address pk with
  | error e => simp [Option.all]
  | ok account =>
    refine ⟨rfl, ?_⟩
    simp [Option.all, isBase58Str]
    left
    decide

theorem option_all_some {α : Type} (p : α → Bool) (x : α) : (some x).all p = p x := rfl

/-! ## Claim theorems -/

/-- Claim C1: for every 32-byte genesis hash and every encryption scheme,
decoding the key built by `NetworkSpecsKey::from_parts` with
`genesis_hash_encryption` returns exactly the original pair, and the
encoding is injective: distinct (hash, scheme) pairs never produce equal
key byte strings. -/
theorem claim_C1_networkSpecsKey_roundtrip_injective :
    (∀ (h : Bytes) (e : Encryption), h.length = 32 →
      (NetworkSpecsKey.from_parts h e).genesis_hash_encryption = .ok (h, e))
    ∧ (∀ (h1 : Bytes) (e1 : Encryption) (h2 : Bytes) (e2 : Encryption),
        h1.length = 32 → h2.length = 32 →
        NetworkSpecsKey.from_parts h1 e1 = NetworkSpecsKey.from_parts h2 e2 →
        h1 = h2 ∧ e1 = e2) := by
  constructor
  · intro h e hlen
    have ht : h.take 32 = h := by rw [← hlen]; exact List.take_length h
    cases e <;>
      simp [NetworkSpecsKey.from_parts, NetworkSpecsKey.genesis_hash_encryption,
        NetworkSpecsKeyContent.encode, NetworkSpecsKeyContent.decode, hlen, ht]
  · intro h1 e1 h2 e2 _ _ heq
    cases e1 <;> cases e2 <;>
      simp_all [NetworkSpecsKey.from_parts, NetworkSpecsKeyContent.encode]

/-- Claim C1 witness: the round trip and the injectivity conclusion at a
concrete 32-byte hash. -/
theorem claim_C1_witness :
    (NetworkSpecsKey.from_parts (List.replicate 32 5) .Ethereum).genesis_hash_encryption
      = .ok (List.replicate 32 5, .Ethereum)
    ∧ (List.replicate 32 5 = List.replicate 32 5
        ∧ Encryption.Ethereum = Encryption.Ethereum) :=
  ⟨claim_C1_networkSpecsKey_roundtrip_injective.1 (List.replicate 32 5) .Ethereum (by simp),
   claim_C1_networkSpecsKey_roundtrip_injective.2 (List.replicate 32 5) .Ethereum
     (List.replicate 32 5) .Ethereum (by simp) (by simp) rfl⟩

/-- Claim C2 counterexample: a key of 34 bytes — a valid `Ed25519` tag,
32 hash bytes and one extra trailing byte — is not one of the 4 exact
tagged shapes, yet `genesis_hash_encryption` succeeds on it instead of
failing with `MalformedKey`: plain SCALE `decode` ignores trailing
bytes. -/
theorem claim_C2_counterexample :
    isExactTaggedShape ((0 :: List.replicate 32 0) ++ [7]) = false
    ∧ (NetworkSpecsKey.mk ((0 :: List.replicate 32 0) ++ [7])).genesis_hash_encryption
        = .ok (List.replicate 32 0, .Ed25519) := by decide

/-- Claim C2, amended: `genesis_hash_encryption` fails with
`MalformedKey` exactly when the key does not start with a valid tag byte
(0–3) followed by at least 32 bytes — so unknown tags and too-short
inputs fail, but extra trailing bytes are ignored and the first 32 hash
bytes after the tag are returned. -/
theorem claim_C2_amended_thm :
    (∀ (t : Nat) (rest : Bytes),
      (NetworkSpecsKey.mk (t :: rest)).genesis_hash_encryption =
        if t ≤ 3 ∧ 32 ≤ rest.length then .ok (rest.take 32, tagEncryption t)
        else .error .malformedKey)
    ∧ (NetworkSpecsKey.mk []).genesis_hash_encryption = .error .malformedKey := by
  refine ⟨fun t rest => ?_, by decide⟩
  by_cases hl : 32 ≤ rest.length
  · rcases t with _ | _ | _ | _ | t <;>
      simp [NetworkSpecsKey.genesis_hash_encryption, NetworkSpecsKeyContent.decode,
        hl, tagEncryption]
  · rcases t with _ | _ | _ | _ | t <;>
      simp [NetworkSpecsKey.genesis_hash_encryption, NetworkSpecsKeyContent.decode,
        hl, tagEncryption]

/-- Claim C3: `AddressKey::from_parts` fails with `WrongPublicKeyLength`
exactly when the raw key length differs from the scheme's expected
length (32 for Ed25519/Sr25519, 33 for Ecdsa/Ethereum); on an exact
match it always succeeds. -/
theorem claim_C3_addresskey_length_check :
    ∀ (p : Bytes) (e : Encryption) (gh : Option Bytes),
      (exceptIsOk (AddressKey.from_parts p e gh) = (p.length == expectedKeyLength e))
      ∧ (p.length ≠ expectedKeyLength e →
          AddressKey.from_parts p e gh = .error (.definitionError .wrongPublicKeyLength)) := by
  intro p e gh
  constructor
  · by_cases h : p.length = expectedKeyLength e <;> cases e <;>
      simp_all [AddressKey.from_parts, get_multisigner, expectedKeyLength, exceptIsOk]
  · intro h
    cases e <;>
      simp_all [AddressKey.from_parts, get_multisigner, expectedKeyLength, exceptIsOk]

/-- Claim C3 witness: a correct-length key succeeds and a wrong-length
key fails with `WrongPublicKeyLength`, at concrete inputs. -/
theorem claim_C3_witness :
    (exceptIsOk (AddressKey.from_parts (List.replicate 32 0) .Ed25519 none)
        = ((List.replicate 32 0).length == expectedKeyLength .Ed25519))
    ∧ AddressKey.from_parts [0] .Sr25519 (some (List.replicate 32 1))
        = .error (.definitionError .wrongPublicKeyLength) :=
  ⟨(claim_C3_addresskey_length_check (List.replicate 32 0) .Ed25519 none).1,
   (claim_C3_addresskey_length_check [0] .Sr25519 (some (List.replicate 32 1))).2 (by decide)⟩

/-- Claim C4 counterexample: with the Ethereum scheme but an `Ed25519`
signer identity, `print_multisigner_as_base58_or_eth` produces an SS58
base58 string, not a `0x`-prefixed hex address — the renderer is chosen
by the `MultiSigner` variant first, so the claim's "Ethereum scheme
never produces base58" fails at this concrete input. -/
theorem claim_C4_counterexample :
    ((print_multisigner_as_base58_or_eth (.Ed25519 (List.replicate 32 0)) none .Ethereum).all
        isEthHexStr = false)
    ∧ ((print_multisigner_as_base58_or_eth (.Ed25519 (List.replicate 32 0)) none .Ethereum).all
        (fun s => !isBase58Str s) = false) := by
  have h := ss58_shape (List.replicate 32 0) 3
  have hp : print_multisigner_as_base58_or_eth (.Ed25519 (List.replicate 32 0)) none .Ethereum
      = some (to_ss58check_with_version (List.replicate 32 0) 3) := rfl
  rw [hp, option_all_some, option_all_some, h.1, h.2]
  exact ⟨rfl, rfl⟩

/-- Claim C4, amended: the Ethereum renderer (`0x`-prefixed hex, never
base58) is selected only for an `Ecdsa` signer identity under the
Ethereum scheme; under the Sr25519 or Ed25519 scheme every identity is
rendered as SS58 base58 and never `0x`-prefixed; and an Ed25519 or
Sr25519 identity is rendered as SS58 base58 even under the Ethereum
scheme. -/
theorem claim_C4_amended_thm :
    ∀ (ms : MultiSigner) (pre : Option Nat) (pk : Bytes),
      ((print_multisigner_as_base58_or_eth (.Ecdsa pk) pre .Ethereum).all isEthHexStr = true)
      ∧ ((print_multisigner_as_base58_or_eth (.Ecdsa pk) pre .Ethereum).all
          (fun s => !isBase58Str s) = true)
      ∧ ((print_multisigner_as_base58_or_eth ms pre .Sr25519).all
          (fun s => !isEthHexStr s) = true)
      ∧ ((print_multisigner_as_base58_or_eth ms pre .Sr25519).all isBase58Str = true)
      ∧ ((print_multisigner_as_base58_or_eth ms pre .Ed25519).all
          (fun s => !isEthHexStr s) = true)
      ∧ ((print_multisigner_as_base58_or_eth ms pre .Ed25519).all isBase58Str = true)
      ∧ ((print_multisigner_as_base58_or_eth (.Ed25519 pk) pre .Ethereum).all
          isBase58Str = true)
      ∧ ((print_multisigner_as_base58_or_eth (.Sr25519 pk) pre .Ethereum).all
          isBase58Str = true) := by
  intro ms pre pk
  have hec : print_multisigner_as_base58_or_eth (.Ecdsa pk) pre .Ethereum
      = print_ethereum_address pk := by
    cases pre <;> simp [print_multisigner_as_base58_or_eth]
  refine ⟨?_, ?_, ?_, ?_, ?_, ?_, ?_, ?_⟩
  · rw [hec]; exact (eth_print_shape pk).1
  · rw [hec]; exact (eth_print_shape pk).2
  all_goals
    cases pre <;> cases ms <;>
      simp only [print_multisigner_as_base58_or_eth, to_ss58check, option_all_some] <;>
      simp [(ss58_shape _ _).1, (ss58_shape _ _).2]

/-- Claim C5: the path parser maps `"//Alice"` to `("//Alice", false)`,
`"//Alice///pwd"` to `("//Alice", true)` (the password stripped and
reported only as a boolean), and `""` to `("", false)`. -/
theorem claim_C5_path_parsing :
    parseDerivationPath ("//Alice") = ("//Alice", false)
    ∧ parseDerivationPath ("//Alice///pwd") = ("//Alice", true)
    ∧ parseDerivationPath ("") = ("", false) := by
  refine ⟨?_, ?_, ?_⟩ <;> decide

/-- Claim C6 counterexample: with no network specs, empty seed name,
the non-empty seed phrase `"seedphrase"` and path `"//x"`, the call does
not fail with `EmptySeedName`: the seed-name check runs only after the
derivation step, and the derivation rejects the combined secret string
(as `sp_core` in fact does here, `"seedphrase"` not being a valid BIP-39
mnemonic), so the `SecretStringError` is returned first. -/
theorem claim_C6_counterexample :
    (create_address_with_seed_phrase failDerivers none ("//x") ("seedphrase") ("")).1
      = .error (.secretStringError .invalidPhrase) := by decide

/-- Claim C6, amended: with an empty seed name the call fails with
`EmptySeedName` provided the derivation of the combined secret string
succeeds (the emptiness check runs after derivation); with an empty seed
phrase it fails with `EmptySeed` unconditionally, before any derivation.
In either failure the `Except.error` result carries no `AddressDetails`
and no `IdentityRecord`. -/
theorem claim_C6_amended_thm :
    (∀ (d : Derivers) (ms : MultiSigner),
      (full_address_to_multisigner d ("seedphrase" ++ "//x") .Sr25519).1 = .ok ms →
      (create_address_with_seed_phrase d none ("//x") ("seedphrase") ("")).1
        = .error .emptySeedName)
    ∧ (∀ (d : Derivers) (path name : String),
        (create_address_with_seed_phrase d none path ("") name).1 = .error .emptySeed) := by
  constructor
  · intro d ms hd
    unfold create_address_with_seed_phrase
    rw [if_neg (by decide : ¬(("seedphrase" : String).isEmpty = true))]
    simp only [Option.map_none', Option.getD_none]
    rw [hd]
    have hparse : parseDerivationPath ("//x") = ("//x", false) := by decide
    rw [hparse]
    simp [do_create_address_with_seed_phrase,
      show (("" : String).isEmpty = true) from by decide]
  · intro d path name
    unfold create_address_with_seed_phrase
    rw [if_pos (by decide : (("" : String).isEmpty = true))]

/-- Claim C6 witness: a deriver behaviour that succeeds makes the
empty-seed-name call fail with `EmptySeedName`. -/
theorem claim_C6_witness :
    (create_address_with_seed_phrase okDerivers none ("//x") ("seedphrase") ("")).1
      = .error .emptySeedName :=
  claim_C6_amended_thm.1 okDerivers (.Sr25519 (List.replicate 32 1)) (by decide)

/-- Claim C7: every successful `create_address` run returns
`AddressDetails` with `secret_exposed = false`; with no network specs
its encryption is `Sr25519`, it has no network binding and no
`IdentityRecord` is produced; with specs present its encryption is the
network's scheme, its network binding is the network's
`NetworkSpecsKey`, and an `IdentityRecord` is produced carrying the raw
public key of the derived identity and the network's genesis hash. -/
theorem claim_C7_create_address_success_shape :
    ∀ (d : Derivers) (specs : Option NetworkSpecs) (dp sp sn : String)
      (res : Option AddressDetails × Option IdentityRecord),
      (create_address_with_seed_phrase d specs dp sp sn).1 = .ok res →
      ∃ ad, res.1 = some ad ∧ ad.secret_exposed = false ∧
        (specs = none → ad.encryption = .Sr25519 ∧ ad.network_id = none ∧ res.2 = none) ∧
        (∀ ns, specs = some ns →
          ad.encryption = ns.encryption ∧
          ad.network_id = some (NetworkSpecsKey.from_parts ns.genesis_hash ns.encryption) ∧
          ∃ ms, (full_address_to_multisigner d (sp ++ dp) ns.encryption).1 = .ok ms ∧
            res.2 = some (IdentityRecord.get sn ns.encryption (multisigner_to_public ms)
              (parseDerivationPath dp).1 ns.genesis_hash)) := by
  intro d specs dp sp sn res hok
  unfold create_address_with_seed_phrase at hok
  by_cases hsp : sp.isEmpty
  · rw [if_pos hsp] at hok
    simp at hok
  · rw [if_neg hsp] at hok
    cases specs with
    | none =>
      simp only [Option.map_none', Option.getD_none] at hok
      cases hfm : (full_address_to_multisigner d (sp ++ dp) .Sr25519).1 with
      | error e => rw [hfm] at hok; simp at hok
      | ok ms =>
        rw [hfm] at hok
        cases hdo : do_create_address_with_seed_phrase (parseDerivationPath dp).1 none sn ms
            (parseDerivationPath dp).2 with
        | error e => simp [hdo] at hok
        | ok r =>
          simp [hdo] at hok
          subst hok
          unfold do_create_address_with_seed_phrase at hdo
          by_cases hsn : sn.isEmpty
          · rw [if_pos hsn] at hdo; simp at hdo
          · rw [if_neg hsn] at hdo
            simp only [Option.map_none', Option.getD_none] at hdo
            simp at hdo
            refine ⟨{ seed_name := sn, path := (parseDerivationPath dp).1,
                      has_pwd := (parseDerivationPath dp).2, network_id := none,
                      encryption := .Sr25519, secret_exposed := false }, ?_, rfl, ?_, ?_⟩
            · rw [← hdo]
            · intro _
              exact ⟨rfl, rfl, by rw [← hdo]⟩
            · intro ns hns
              exact absurd hns (by simp)
    | some ns =>
      simp only [Option.map_some', Option.getD_some] at hok
      cases hfm : (full_address_to_multisigner d (sp ++ dp) ns.encryption).1 with
      | error e => rw [hfm] at hok; simp at hok
      | ok ms =>
        rw [hfm] at hok
        cases hdo : do_create_address_with_seed_phrase (parseDerivationPath dp).1 (some ns) sn ms
            (parseDerivationPath dp).2 with
        | error e => simp [hdo] at hok
        | ok r =>
          simp [hdo] at hok
          subst hok
          unfold do_create_address_with_seed_phrase at hdo
          by_cases hsn : sn.isEmpty
          · rw [if_pos hsn] at hdo; simp at hdo
          · rw [if_neg hsn] at hdo
            simp only [Option.map_some', Option.getD_some] at hdo
            simp at hdo
            refine ⟨{ seed_name := sn, path := (parseDerivationPath dp).1,
                      has_pwd := (parseDerivationPath dp).2,
                      network_id := some (NetworkSpecsKey.from_parts ns.genesis_hash ns.encryption),
                      encryption := ns.encryption, secret_exposed := false }, ?_, rfl, ?_, ?_⟩
            · rw [← hdo]
            · intro hcontra
              exact absurd hcontra (by simp)
            · intro ns2 hns2
              injection hns2 with hns2
              subst hns2
              exact ⟨rfl, rfl, ms, hfm, by rw [← hdo]⟩

/-- Claim C7 witness: the conclusion at a concrete successful run with
network specs present. -/
theorem claim_C7_witness :
    ∃ ad, ((some c7resAD, some c7resIR) :
        Option AddressDetails × Option IdentityRecord).1 = some ad
      ∧ ad.secret_exposed = false
      ∧ ((some testSpecs : Option NetworkSpecs) = none →
          ad.encryption = .Sr25519 ∧ ad.network_id = none
          ∧ ((some c7resAD, some c7resIR) :
              Option AddressDetails × Option IdentityRecord).2 = none)
      ∧ (∀ ns, (some testSpecs : Option NetworkSpecs) = some ns →
          ad.encryption = ns.encryption
          ∧ ad.network_id = some (NetworkSpecsKey.from_parts ns.genesis_hash ns.encryption)
          ∧ ∃ ms, (full_address_to_multisigner okDerivers ("seed" ++ "//x") ns.encryption).1
                = .ok ms
              ∧ ((some c7resAD, some c7resIR) :
                  Option AddressDetails × Option IdentityRecord).2
                = some (IdentityRecord.get ("n") ns.encryption (multisigner_to_public ms)
                    (parseDerivationPath ("//x")).1 ns.genesis_hash)) :=
  claim_C7_create_address_success_shape okDerivers (some testSpecs) ("//x") ("seed") ("n")
    (some c7resAD, some c7resIR) (by decide)

/-- Claim C8: on every exit path the secret working buffer is
overwritten with zeros.  In the state-passing model the buffer's final
memory is the second component: it is all-zero after every
`full_address_to_multisigner` call (success or failure alike), and every
buffer ever created by `create_address_with_seed_phrase` (on all three
exits: success, seed-name validation failure, derivation failure) ends
all-zero. -/
theorem claim_C8_zeroization :
    (∀ (d : Derivers) (full_address : String) (e : Encryption),
      ((full_address_to_multisigner d full_address e).2.data.all
        (fun c => c == Char.ofNat 0)) = true)
    ∧ (∀ (d : Derivers) (specs : Option NetworkSpecs) (dp sp sn : String) (buf : String),
        (create_address_with_seed_phrase d specs dp sp sn).2 = some buf →
        (buf.data.all (fun c => c == Char.ofNat 0)) = true) := by
  have hz : ∀ s : String,
      ((zeroizeString s).data.all (fun c => c == Char.ofNat 0)) = true := by
    intro s
    unfold zeroizeString
    simp [List.all_eq_true]
  have hfam : ∀ (d : Derivers) (fa : String) (e : Encryption),
      ((full_address_to_multisigner d fa e).2.data.all (fun c => c == Char.ofNat 0)) = true := by
    intro d fa e
    have h2 : (full_address_to_multisigner d fa e).2 = zeroizeString fa := by
      unfold full_address_to_multisigner
      rfl
    rw [h2]
    exact hz fa
  refine ⟨hfam, ?_⟩
  intro d specs dp sp sn buf hbuf
  unfold create_address_with_seed_phrase at hbuf
  by_cases hsp : sp.isEmpty
  · rw [if_pos hsp] at hbuf
    simp at hbuf
  · rw [if_neg hsp] at hbuf
    cases hfm : (full_address_to_multisigner d (sp ++ dp)
        ((specs.map (fun ns => ns.encryption)).getD .Sr25519)).1 with
    | error e =>
      simp only [hfm, Option.some.injEq] at hbuf
      subst hbuf
      exact hfam d (sp ++ dp) _
    | ok ms =>
      cases hdo : do_create_address_with_seed_phrase (parseDerivationPath dp).1 specs sn ms
          (parseDerivationPath dp).2 with
      | error e =>
        simp only [hfm, hdo, Option.some.injEq] at hbuf
        subst hbuf
        exact hfam d (sp ++ dp) _
      | ok r =>
        simp only [hfm, hdo, Option.some.injEq] at hbuf
        subst hbuf
        exact hfam d (sp ++ dp) _

/-- Claim C8 witness: the buffer produced by a concrete run is all-zero
memory of the buffer's length. -/
theorem claim_C8_witness :
    ((String.mk (List.replicate 7 (Char.ofNat 0))).data.all
      (fun c => c == Char.ofNat 0)) = true :=
  claim_C8_zeroization.2 okDerivers none ("//x") ("seed") ("n")
    (String.mk (List.replicate 7 (Char.ofNat 0))) (by decide)

/-- Claim C9: the Ethereum scheme tag is not preserved by `AddressKey`:
a key built with `from_parts` under `Ethereum` reads back as `Ecdsa`
from `public_key_encryption`, while the `Ed25519`, `Sr25519` and
`Ecdsa` schemes round-trip their (public key, scheme) pair unchanged. -/
theorem claim_C9_ethereum_tag_lost :
    ∀ (p : Bytes) (gh : Option Bytes) (k : AddressKey),
      (AddressKey.from_parts p .Ethereum gh = .ok k →
        k.public_key_encryption = .ok (p, .Ecdsa))
      ∧ (AddressKey.from_parts p .Ecdsa gh = .ok k →
          k.public_key_encryption = .ok (p, .Ecdsa))
      ∧ (AddressKey.from_parts p .Ed25519 gh = .ok k →
          k.public_key_encryption = .ok (p, .Ed25519))
      ∧ (AddressKey.from_parts p .Sr25519 gh = .ok k →
          k.public_key_encryption = .ok (p, .Sr25519)) := by
  intro p gh k
  refine ⟨?_, ?_, ?_, ?_⟩ <;> intro h <;> unfold AddressKey.from_parts get_multisigner at h
  · by_cases hl : p.length = 33
    · simp [hl] at h
      subst h
      rfl
    · simp [hl] at h
  · by_cases hl : p.length = 33
    · simp [hl] at h
      subst h
      rfl
    · simp [hl] at h
  · by_cases hl : p.length = 32
    · simp [hl] at h
      subst h
      rfl
    · simp [hl] at h
  · by_cases hl : p.length = 32
    · simp [hl] at h
      subst h
      rfl
    · simp [hl] at h

/-- Claim C9 witness: the Ethereum-scheme conclusion and one round-trip
conclusion at concrete keys. -/
theorem claim_C9_witness :
    ((AddressKey.new (.Ecdsa (List.replicate 33 0)) none).public_key_encryption
      = .ok (List.replicate 33 0, .Ecdsa))
    ∧ ((AddressKey.new (.Ed25519 (List.replicate 32 0))
          (some (List.replicate 32 2))).public_key_encryption
        = .ok (List.replicate 32 0, .Ed25519)) :=
  ⟨(claim_C9_ethereum_tag_lost (List.replicate 33 0) none
      (AddressKey.new (.Ecdsa (List.replicate 33 0)) none)).1 (by decide),
   (claim_C9_ethereum_tag_lost (List.replicate 32 0) (some (List.replicate 32 2))
      (AddressKey.new (.Ed25519 (List.replicate 32 0)) (some (List.replicate 32 2)))).2.2.1
     (by decide)⟩

/-- Claim C10: `NetworkSpecsKey::from_hex` succeeds exactly when the
input is valid hexadecimal after an optional `0x` — no tag or length
validation happens, so it can return a key (here from `"ff"`) on which
`genesis_hash_encryption` subsequently fails with `MalformedKey`. -/
theorem claim_C10_from_hex_no_validation :
    (∀ s : String, exceptIsOk (NetworkSpecsKey.from_hex s) = isValidHexInput s)
    ∧ NetworkSpecsKey.from_hex ("ff") = .ok ⟨[255]⟩
    ∧ (NetworkSpecsKey.mk [255]).genesis_hash_encryption = .error .malformedKey := by
  refine ⟨fun s => ?_, by decide, by decide⟩
  unfold NetworkSpecsKey.from_hex unhex isValidHexInput
  have h := hexDecodeChars_isSome (strip0x s.data)
  cases hd : hexDecodeChars (strip0x s.data) <;>
    simp_all [exceptIsOk, Except.map]
